import Mathlib

/-!
Verification of the memory-game engine in `src/script.js`.

The script is a DOM-driven memory-matching game.  The definitions below are a
shallow embedding of its game logic:

* JS arrays become `List`, the card DOM elements become `Card` records holding
  the CSS classes (`flipped`, `matched`) and the `data-card-type` attribute;
* the module-level `gameState` object becomes the `GameState` record;
* `Math.random()` draws are supplied by an oracle `rand : Nat → Nat`; the JS
  expression `Math.floor(Math.random() * (i + 1))`, which yields an integer in
  `[0, i]`, is modelled as `rand i % (i + 1)`;
* `localStorage` becomes a function `String → Option String`;
* `setTimeout` delays (the 600 ms match check, the 1000 ms flip-back and the
  500 ms completion pause) are display pauses; the flip-back and completion are
  collapsed into the resolution step that schedules them, while the match check
  itself stays a separate step (`checkForMatch`), exactly as the spec's
  deferred `resolvePendingTurn`.
-/

namespace MemoryGame

universe u

variable {α : Type u}

/-- Models the JS destructuring swap
`[shuffled[i], shuffled[j]] = [shuffled[j], shuffled[i]]`: both reads happen
before both writes.  `shuffleArray` only ever calls it with in-range indices;
out-of-range reads are modelled as leaving the list unchanged. -/
def listSwap (l : List α) (i j : Nat) : List α :=
  match l[i]?, l[j]? with
  | some a, some b => (l.set i b).set j a
  | _, _ => l

/-- Models `Math.floor(Math.random() * (i + 1))` from `shuffleArray`: the
oracle value for step `i`, reduced into the interval `[0, i]`. -/
def drawIndex (rand : Nat → Nat) (i : Nat) : Nat :=
  rand i % (i + 1)

/-- The loop of `shuffleArray`: `for (let i = n - 1; i > 0; i--)` swapping
position `i` with the drawn position.  The argument is the next loop index;
the loop body runs only while it is positive. -/
def fisherYatesAux (rand : Nat → Nat) : Nat → List α → List α
  | 0, l => l
  | i + 1, l => fisherYatesAux rand i (listSwap l (i + 1) (drawIndex rand (i + 1)))

/-- Models `shuffleArray(array)` from `src/script.js`: the body copies the
input (`const shuffled = [...array]`), runs the Fisher-Yates loop on the copy
and returns it. -/
def shuffleArray (array : List α) (rand : Nat → Nat) : List α :=
  fisherYatesAux rand (array.length - 1) array

/-- Models a whole call `shuffleArray(a)` as seen by the caller: the first
component is the caller's array after the call, the second the returned array.
The JS body mutates only its private copy `shuffled` (every write in the loop
targets `shuffled[i]` or `shuffled[j]`), so the caller's array is unchanged. -/
def shuffleArrayCall (a : List α) (rand : Nat → Nat) : List α × List α :=
  (a, shuffleArray a rand)

/-- Modelled from the spec: "Fisher-Yates, in-place, from the last index down
to index 1, each step drawing a uniformly random swap partner from `[0, i]`
inclusive".  The indices `n - 1, n - 2, …, 1` are walked in order and position
`i` is swapped with the drawn position in `[0, i]`. -/
def fisherYatesFromSpec (a : List α) (rand : Nat → Nat) : List α :=
  (((List.range a.length).reverse).filter (fun i => 0 < i)).foldl
    (fun l i => listSwap l i (drawIndex rand i)) a

/-- The `CARD_TYPES` constant: 8 pairs for the 4x4 grid. -/
def CARD_TYPES : List String :=
  ["1", "2", "3", "4", "5", "6", "7", "8"]

/-- The `cardPairs` array built in `generateCards`:
`CARD_TYPES.forEach(cardType => cardPairs.push(cardType, cardType))`. -/
def cardPairs : List String :=
  CARD_TYPES.flatMap (fun cardType => [cardType, cardType])

/-- Models the deck produced by `generateCards`:
`gameState.cards = shuffleArray(cardPairs)`. -/
def generateCards (rand : Nat → Nat) : List String :=
  shuffleArray cardPairs rand

/-! ### Multiset preservation of the shuffle -/

theorem multiset_set_cons :
    ∀ (l : List α) (i : Nat) (h : i < l.length) (a : α),
      (l.get ⟨i, h⟩) ::ₘ ((l.set i a : List α) : Multiset α) =
        a ::ₘ (l : Multiset α)
  | x :: t, 0, _, a => by
      show x ::ₘ ((a :: t : List α) : Multiset α) = a ::ₘ ((x :: t : List α) : Multiset α)
      rw [← Multiset.cons_coe, ← Multiset.cons_coe]
      exact Multiset.cons_swap x a (t : Multiset α)
  | x :: t, i + 1, h, a => by
      have ih := multiset_set_cons t i (Nat.lt_of_succ_lt_succ h) a
      show t.get ⟨i, _⟩ ::ₘ ((x :: t.set i a : List α) : Multiset α) =
        a ::ₘ ((x :: t : List α) : Multiset α)
      rw [← Multiset.cons_coe, ← Multiset.cons_coe, Multiset.cons_swap, ih,
        Multiset.cons_swap]

theorem listSwap_multiset (l : List α) (i j : Nat) :
    ((listSwap l i j : List α) : Multiset α) = (l : Multiset α) := by
  unfold listSwap
  cases hi : l[i]? with
  | none => cases l[j]? <;> rfl
  | some a =>
    cases hj : l[j]? with
    | none => rfl
    | some b =>
      obtain ⟨hilt, hia⟩ := List.getElem?_eq_some.mp hi
      obtain ⟨hjlt, hjb⟩ := List.getElem?_eq_some.mp hj
      by_cases hij : i = j
      · subst hij
        have hab : a = b := by rw [← hia, ← hjb]
        subst hab
        show (((l.set i a).set i a : List α) : Multiset α) = (l : Multiset α)
        rw [List.set_set]
        have h1 := multiset_set_cons l i hilt a
        have hget : l.get ⟨i, hilt⟩ = a := hia
        rw [hget] at h1
        exact (Multiset.cons_inj_right a).mp h1
      · show (((l.set i b).set j a : List α) : Multiset α) = (l : Multiset α)
        have hjlt' : j < (l.set i b).length := by
          rw [List.length_set]; exact hjlt
        have h2 := multiset_set_cons (l.set i b) j hjlt' a
        have hgj : (l.set i b).get ⟨j, hjlt'⟩ = b := by
          have : (l.set i b)[j]? = some b := by
            rw [List.getElem?_set_ne hij]; exact hj
          have h3 := List.getElem?_eq_some.mp this
          obtain ⟨_, h4⟩ := h3
          exact h4
        rw [hgj] at h2
        have h1 := multiset_set_cons l i hilt b
        have hgi : l.get ⟨i, hilt⟩ = a := hia
        rw [hgi] at h1
        have : b ::ₘ (((l.set i b).set j a : List α) : Multiset α) =
            b ::ₘ (l : Multiset α) := by
          rw [h2, h1]
        exact (Multiset.cons_inj_right b).mp this

theorem fisherYatesAux_multiset (rand : Nat → Nat) :
    ∀ (k : Nat) (l : List α),
      ((fisherYatesAux rand k l : List α) : Multiset α) = (l : Multiset α)
  | 0, _ => rfl
  | k + 1, l => by
      rw [fisherYatesAux, fisherYatesAux_multiset rand k, listSwap_multiset]

theorem shuffleArray_multiset (a : List α) (rand : Nat → Nat) :
    ((shuffleArray a rand : List α) : Multiset α) = (a : Multiset α) :=
  fisherYatesAux_multiset rand (a.length - 1) a

/-! ### The loop of shuffleArray is the spec's index walk -/

theorem fisherYatesFromSpec_aux (rand : Nat → Nat) :
    ∀ (k : Nat) (l : List α),
      (((List.range (k + 1)).reverse).filter (fun i => 0 < i)).foldl
        (fun l i => listSwap l i (drawIndex rand i)) l = fisherYatesAux rand k l
  | 0, l => rfl
  | k + 1, l => by
      have ih := fisherYatesFromSpec_aux rand k
        (listSwap l (k + 1) (drawIndex rand (k + 1)))
      rw [List.range_succ, List.reverse_append, List.reverse_singleton,
        List.singleton_append, List.filter_cons_of_pos (by simp),
        List.foldl_cons, ih, fisherYatesAux]

theorem shuffleArray_eq_fisherYatesFromSpec (a : List α) (rand : Nat → Nat) :
    shuffleArray a rand = fisherYatesFromSpec a rand := by
  unfold shuffleArray fisherYatesFromSpec
  cases hn : a.length with
  | zero => rfl
  | succ k => rw [Nat.add_sub_cancel]; exact (fisherYatesFromSpec_aux rand k a).symm

/-! ### Claims C1, C2, C8 -/

/-- C2: for every input array and every sequence of random draws, the output of
`shuffleArray` is a permutation of the input — equal as multisets (hence with
equal sorted multisets). -/
theorem shuffleArray_permutation (a : List α) (rand : Nat → Nat) :
    ((shuffleArray a rand : List α) : Multiset α) = (a : Multiset α) :=
  shuffleArray_multiset a rand

/-- C1: every deck produced by `generateCards` (the deck-building step of
`newGame`) has exactly 16 cards, exactly 8 distinct symbols, and every symbol
occurring in it occurs exactly twice — for every run of the random oracle. -/
theorem generateCards_multiset_invariant (rand : Nat → Nat) :
    (generateCards rand).length = 16 ∧
    (generateCards rand).toFinset.card = 8 ∧
    ∀ t ∈ generateCards rand, (generateCards rand).count t = 2 := by
  have h := shuffleArray_multiset cardPairs rand
  refine ⟨?_, ?_, ?_⟩
  · show (shuffleArray cardPairs rand).length = 16
    have hlen := congrArg Multiset.card h
    rw [Multiset.coe_card, Multiset.coe_card] at hlen
    rw [hlen]
    rfl
  · show (shuffleArray cardPairs rand).toFinset.card = 8
    have hfin := congrArg Multiset.toFinset h
    rw [List.toFinset_coe, List.toFinset_coe] at hfin
    rw [hfin]
    decide
  · intro t ht
    have hc : (generateCards rand).count t = cardPairs.count t := by
      have hcnt := congrArg (Multiset.count t) h
      rwa [Multiset.coe_count, Multiset.coe_count] at hcnt
    have hm : t ∈ cardPairs := by
      have hmem : t ∈ (cardPairs : Multiset String) := by
        rw [← h]; exact Multiset.mem_coe.mpr ht
      exact Multiset.mem_coe.mp hmem
    rw [hc]
    have hcp : cardPairs =
        ["1", "1", "2", "2", "3", "3", "4", "4",
         "5", "5", "6", "6", "7", "7", "8", "8"] := rfl
    rw [hcp] at hm ⊢
    simp only [List.mem_cons, List.not_mem_nil, or_false] at hm
    rcases hm with rfl | rfl | rfl | rfl | rfl | rfl | rfl | rfl |
      rfl | rfl | rfl | rfl | rfl | rfl | rfl | rfl <;> decide

/-- C8 counterexample: the shuffle is not performed in place on the given
array.  Calling `shuffleArray` on `[0, 1]` with an oracle that always draws 0
leaves the caller's array `[0, 1]` while returning the shuffled `[1, 0]`, so
the given array does not hold the shuffled arrangement after the call. -/
theorem shuffleArray_not_in_place :
    (shuffleArrayCall [0, 1] (fun _ => 0)).1 ≠
      (shuffleArrayCall [0, 1] (fun _ => 0)).2 := by
  decide

/-- C8 (amended): the shuffle follows the Fisher-Yates algorithm on a private
copy of the given array — the input array is left unchanged by the call — and
the returned copy is produced by iterating from the last index down to index 1,
at each index `i` swapping the element at `i` with the element at the drawn
index, which always lies in `[0, i]` inclusive. -/
theorem shuffleArray_fisher_yates_on_copy (a : List α) (rand : Nat → Nat) :
    (shuffleArrayCall a rand).1 = a ∧
    (shuffleArrayCall a rand).2 = fisherYatesFromSpec a rand ∧
    ∀ i : Nat, drawIndex rand i ≤ i :=
  ⟨rfl, shuffleArray_eq_fisherYatesFromSpec a rand,
    fun i => Nat.lt_succ_iff.mp (Nat.mod_lt _ (Nat.succ_pos i))⟩

/-! ### The game state

`gameState` from `src/script.js`, with DOM card elements replaced by `Card`
records carrying their CSS classes, and `timerInterval` replaced by the flag
`timerRunning` (whether the 1-second interval is installed). -/

/-- A card element of the grid: its `data-card-type` attribute and its
`flipped` / `matched` CSS classes.  The `wrong` class is added and removed
within the collapsed mismatch resolution, so it never survives a step and is
not modelled. -/
structure Card where
  type : String
  flipped : Bool
  matched : Bool
  deriving DecidableEq, Repr

/-- An entry of `gameState.flippedCards`: the pushed object
`{element, index, type}`, with the element reference represented by its
index. -/
structure FlippedCard where
  index : Nat
  type : String
  deriving DecidableEq, Repr

/-- The `gameState.currentPlayer` object.  JS numbers that stay naturals are
modelled as `Option Nat`, `none` standing for `NaN` (which `parseInt` can
produce on a corrupted store and which propagates through `++` and
`toString`). -/
structure Player where
  nickname : String
  email : String
  attempt : Option Nat
  deriving DecidableEq, Repr

/-- The module-level `gameState` object. -/
structure GameState where
  cards : List Card
  flippedCards : List FlippedCard
  matchedPairs : Nat
  moves : Nat
  timer : Nat
  isGameActive : Bool
  timerRunning : Bool
  currentPlayer : Player
  deriving DecidableEq, Repr

/-- The initial `gameState` literal at the top of the script. -/
def initState : GameState :=
  { cards := [], flippedCards := [], matchedPairs := 0, moves := 0, timer := 0,
    isGameActive := false, timerRunning := false,
    currentPlayer := { nickname := "", email := "", attempt := some 1 } }

/-- Models `startTimer()`: installs the 1-second interval. -/
def startTimer (s : GameState) : GameState :=
  { s with timerRunning := true }

/-- Models `stopTimer()`: clears the interval if installed (the result is the
same whether or not it was). -/
def stopTimer (s : GameState) : GameState :=
  { s with timerRunning := false }

/-- Models one firing of the interval callback installed by `startTimer`:
`gameState.timer++`.  The callback fires exactly while the interval is
installed, so a tick with no interval leaves the state unchanged. -/
def tick (s : GameState) : GameState :=
  if s.timerRunning = true then { s with timer := s.timer + 1 } else s

/-- Models `startGame()`: resets the counters and the pending turn, activates
the game, rebuilds `gameState.cards` from `generateCards` (each freshly
created card element has no `flipped` or `matched` class), and starts the
timer.  UI updates (`elements.moves`, `showGameScreen`) are outside the
engine state. -/
def startGame (s : GameState) (rand : Nat → Nat) : GameState :=
  startTimer
    { s with
      moves := 0, timer := 0, matchedPairs := 0, flippedCards := [],
      isGameActive := true,
      cards := (generateCards rand).map
        (fun t => { type := t, flipped := false, matched := false }) }

/-- Models `flipCard(cardElement, cardIndex)`: adds the `flipped` class,
pushes `{element, index, type}` onto `flippedCards`, and if two cards are now
flipped increments `moves` (the match check itself is scheduled with a 600 ms
delay and is the separate step `checkForMatch`). -/
def flipCard (s : GameState) (i : Nat) : GameState :=
  match s.cards[i]? with
  | none => s
  | some c =>
    let cards' := s.cards.set i { c with flipped := true }
    let flipped' := s.flippedCards ++ [{ index := i, type := c.type }]
    let s' := { s with cards := cards', flippedCards := flipped' }
    if flipped'.length = 2 then { s' with moves := s'.moves + 1 } else s'

/-- Models `handleCardClick(cardElement, cardIndex)` — the spec's
`selectCard`: ignores the click when the game is inactive, the card already
has the `flipped` or `matched` class, or two cards are already pending;
otherwise flips the card.  Click events exist only for the card elements of
the grid, so an index outside the deck has no handler and no effect. -/
def handleCardClick (s : GameState) (i : Nat) : GameState :=
  match s.cards[i]? with
  | none => s
  | some c =>
    if s.isGameActive = false ∨ c.flipped = true ∨ c.matched = true ∨
        2 ≤ s.flippedCards.length then s
    else flipCard s i

/-- Models adding the `matched` class to the card element at index `i`. -/
def setCardMatched (cards : List Card) (i : Nat) : List Card :=
  match cards[i]? with
  | some c => cards.set i { c with matched := true }
  | none => cards

/-- Models removing the `flipped` class from the card element at index `i`
(the transient `wrong` class is added and removed inside the same collapsed
step). -/
def setCardUnflipped (cards : List Card) (i : Nat) : List Card :=
  match cards[i]? with
  | some c => cards.set i { c with flipped := false }
  | none => cards

/-- Models `completeGame()`: deactivates the game and stops the timer.  The
completion modal and the score submission are presentation and network
effects.  In the script it runs 500 ms after the eighth match; the pause is a
display delay and is collapsed into the resolution that schedules it. -/
def completeGame (s : GameState) : GameState :=
  stopTimer { s with isGameActive := false }

/-- Models `handleMatch(card1, card2)`: adds the `matched` class to both
elements, increments `matchedPairs`, and on the eighth pair completes the
game. -/
def handleMatch (s : GameState) (i1 i2 : Nat) : GameState :=
  let s' := { s with cards := setCardMatched (setCardMatched s.cards i1) i2,
                     matchedPairs := s.matchedPairs + 1 }
  if s'.matchedPairs = 8 then completeGame s' else s'

/-- Models `handleNoMatch(card1, card2)` together with its scheduled 1000 ms
flip-back: both elements lose the `flipped` (and transient `wrong`) class. -/
def handleNoMatch (s : GameState) (i1 i2 : Nat) : GameState :=
  { s with cards := setCardUnflipped (setCardUnflipped s.cards i1) i2 }

/-- Models `checkForMatch()` — the spec's `resolvePendingTurn`: destructures
the two pending cards, compares their types, resolves, and clears
`flippedCards`.  With fewer than two pending cards the JS body throws a
`TypeError` on `card1.type` before mutating anything, so the state is
unchanged. -/
def checkForMatch (s : GameState) : GameState :=
  match s.flippedCards with
  | [card1, card2] =>
    let s' := if card1.type = card2.type
      then handleMatch s card1.index card2.index
      else handleNoMatch s card1.index card2.index
    { s' with flippedCards := [] }
  | _ => s

/-! ### External attempt persistence (localStorage) -/

/-- Models `localStorage` as a key-value store of strings. -/
def LocalStorage : Type := String → Option String

/-- Models `localStorage.getItem(k)`. -/
def getItem (st : LocalStorage) (k : String) : Option String := st k

/-- Models `localStorage.setItem(k, v)`. -/
def setItem (st : LocalStorage) (k v : String) : LocalStorage :=
  fun k' => if k' = k then some v else st k'

/-- The storage key `\x7bnickname\x7d_\x7bemail\x7d` used for a player. -/
def playerKey (p : Player) : String :=
  p.nickname ++ "_" ++ p.email

/-- Models `parseInt` on the strings this program can meet: leading decimal
digits are parsed, and `none` (`NaN`) is returned when there are none.  The
program only ever stores `String(n)` of a number, so the sign and
leading-whitespace cases of `parseInt` never arise and are not modelled. -/
def parseIntJS (s : String) : Option Nat :=
  let digits := s.toList.takeWhile Char.isDigit
  if digits.isEmpty then none
  else some (digits.foldl (fun n c => n * 10 + (c.toNat - 48)) 0)

/-- Models `String(x)` / `.toString()` on a JS number that is a natural or
`NaN`. -/
def jsNumToString : Option Nat → String
  | some n => toString n
  | none => "NaN"

/-- Splits a character list at every occurrence of `c` (the separators are
dropped; `n` separators yield `n + 1` pieces). -/
def splitAtChar (c : Char) (l : List Char) : List (List Char) :=
  l.foldr (fun x acc =>
    match acc with
    | [] => [[x]]
    | a :: rest => if x = c then [] :: (a :: rest) else (x :: a) :: rest) [[]]

/-- Models JS `String.prototype.trim`: strips whitespace from both ends.
JS `\s`-style whitespace is modelled by `Char.isWhitespace`. -/
def trimJS (s : String) : String :=
  String.mk
    (((s.toList.dropWhile Char.isWhitespace).reverse.dropWhile
      Char.isWhitespace).reverse)

/-- Models `isValidEmail`, i.e. the test of `/^[^\s@]+@[^\s@]+\.[^\s@]+$/`:
exactly one `@`; a nonempty whitespace-free local part; a whitespace-free
domain containing a dot that has nonempty runs on both sides.  JS `\s` is
modelled by `Char.isWhitespace`. -/
def isValidEmail (email : String) : Bool :=
  match splitAtChar '@' email.toList with
  | [l, d] =>
    !l.isEmpty && !d.isEmpty &&
    l.all (fun ch => !ch.isWhitespace) &&
    d.all (fun ch => !ch.isWhitespace) &&
    ((d.drop 1).dropLast.contains '.')
  | _ => false

/-- Models `handleStartGame(e)` with the two form fields as arguments: trims
them, validates (invalid input alerts and returns with nothing changed),
stamps nickname, email and the attempt number read from storage into
`currentPlayer`, writes the new attempt count back, and starts the game.
JS truthiness of `storedAttempt` makes an empty stored string behave like a
missing one. -/
def handleStartGame (s : GameState) (st : LocalStorage)
    (nickname email : String) (rand : Nat → Nat) : GameState × LocalStorage :=
  let nick := trimJS nickname
  let mail := trimJS email
  if nick.length < 2 then (s, st)
  else if isValidEmail mail = false then (s, st)
  else
    let key := nick ++ "_" ++ mail
    let attempt : Option Nat :=
      match getItem st key with
      | some v => if v = "" then some 1 else (parseIntJS v).map (· + 1)
      | none => some 1
    let st' := setItem st key (jsNumToString attempt)
    let s' := { s with currentPlayer :=
      { nickname := nick, email := mail, attempt := attempt } }
    (startGame s' rand, st')

/-- Models `handleTryAgain()`: increments the current player's attempt number,
writes it back under the player's key, and starts a new game with the same
player. -/
def handleTryAgain (s : GameState) (st : LocalStorage)
    (rand : Nat → Nat) : GameState × LocalStorage :=
  let p := s.currentPlayer
  let attempt' := p.attempt.map (· + 1)
  let st' := setItem st (playerKey p) (jsNumToString attempt')
  let s' := { s with currentPlayer := { p with attempt := attempt' } }
  (startGame s' rand, st')

/-! ### Session steps and reachability -/

/-- The stimuli that drive one session: a card click, a timer tick, and the
scheduled match check. -/
inductive Step : GameState → GameState → Prop
  | click (s : GameState) (i : Nat) : Step s (handleCardClick s i)
  | tick (s : GameState) : Step s (tick s)
  | resolve (s : GameState) : Step s (checkForMatch s)

/-- States a session can be in: everything reachable from `startGame` by
clicks, ticks and match checks. -/
def SessionReachable (rand : Nat → Nat) (s0 s : GameState) : Prop :=
  Relation.ReflTransGen Step (startGame s0 rand) s

/-- The spec's `Completed` session state: all 8 pairs found and the session
finalized (`isActive = false`). -/
@[reducible]
def Completed (s : GameState) : Prop :=
  s.matchedPairs = 8 ∧ s.isGameActive = false

/-- The session invariant: at most two pending cards, the timer interval is
installed exactly while the game is active, and once all 8 pairs are matched
the game is inactive with no pending cards. -/
def Inv (s : GameState) : Prop :=
  s.flippedCards.length ≤ 2 ∧
  s.isGameActive = s.timerRunning ∧
  (s.matchedPairs = 8 → s.isGameActive = false ∧ s.flippedCards = [])

/-! ### Projection lemmas for the card-array updates -/

theorem matched_proj_set (l : List Card) (i j : Nat) (c c' : Card)
    (hc : l[i]? = some c) (hm : c'.matched = c.matched) :
    ((l.set i c')[j]?).map Card.matched = (l[j]?).map Card.matched := by
  by_cases hij : i = j
  · subst hij
    rw [List.getElem?_set_eq_of_lt _ (List.getElem?_eq_some.mp hc).1, hc]
    simp [hm]
  · rw [List.getElem?_set_ne hij]

theorem setCardMatched_isSome (l : List Card) (i j : Nat) :
    ((setCardMatched l i)[j]?).isSome = (l[j]?).isSome := by
  unfold setCardMatched
  cases hi : l[i]? with
  | none => rfl
  | some c =>
    by_cases hij : i = j
    · subst hij
      rw [List.getElem?_set_eq_of_lt _ (List.getElem?_eq_some.mp hi).1, hi]
      rfl
    · rw [List.getElem?_set_ne hij]

theorem setCardUnflipped_isSome (l : List Card) (i j : Nat) :
    ((setCardUnflipped l i)[j]?).isSome = (l[j]?).isSome := by
  unfold setCardUnflipped
  cases hi : l[i]? with
  | none => rfl
  | some c =>
    by_cases hij : i = j
    · subst hij
      rw [List.getElem?_set_eq_of_lt _ (List.getElem?_eq_some.mp hi).1, hi]
      rfl
    · rw [List.getElem?_set_ne hij]

theorem matched_setCardMatched_proj (l : List Card) (i j : Nat) :
    ((setCardMatched l i)[j]?).map Card.matched =
      if i = j ∧ (l[j]?).isSome then some true else (l[j]?).map Card.matched := by
  unfold setCardMatched
  cases hi : l[i]? with
  | none =>
    rw [if_neg]
    rintro ⟨rfl, hsome⟩
    rw [hi] at hsome
    cases hsome
  | some c =>
    by_cases hij : i = j
    · subst hij
      rw [List.getElem?_set_eq_of_lt _ (List.getElem?_eq_some.mp hi).1,
        if_pos ⟨rfl, by rw [hi]; rfl⟩]
      rfl
    · rw [List.getElem?_set_ne hij, if_neg (fun h => hij h.1)]

theorem flipped_setCardUnflipped_proj (l : List Card) (i j : Nat) :
    ((setCardUnflipped l i)[j]?).map Card.flipped =
      if i = j ∧ (l[j]?).isSome then some false else (l[j]?).map Card.flipped := by
  unfold setCardUnflipped
  cases hi : l[i]? with
  | none =>
    rw [if_neg]
    rintro ⟨rfl, hsome⟩
    rw [hi] at hsome
    cases hsome
  | some c =>
    by_cases hij : i = j
    · subst hij
      rw [List.getElem?_set_eq_of_lt _ (List.getElem?_eq_some.mp hi).1,
        if_pos ⟨rfl, by rw [hi]; rfl⟩]
      rfl
    · rw [List.getElem?_set_ne hij, if_neg (fun h => hij h.1)]

theorem matched_setCardUnflipped_proj (l : List Card) (i j : Nat) :
    ((setCardUnflipped l i)[j]?).map Card.matched = (l[j]?).map Card.matched := by
  unfold setCardUnflipped
  cases hi : l[i]? with
  | none => rfl
  | some c => exact matched_proj_set l i j c _ hi rfl

theorem matched_setCardMatched_mono (l : List Card) (i j : Nat)
    (h : (l[j]?).map Card.matched = some true) :
    ((setCardMatched l i)[j]?).map Card.matched = some true := by
  rw [matched_setCardMatched_proj]
  by_cases hcond : i = j ∧ (l[j]?).isSome
  · rw [if_pos hcond]
  · rw [if_neg hcond]; exact h

/-! ### Field characterizations of the operations -/

theorem flipCard_cards (s : GameState) (i : Nat) (c : Card)
    (hc : s.cards[i]? = some c) :
    (flipCard s i).cards = s.cards.set i { c with flipped := true } := by
  unfold flipCard
  rw [hc]
  dsimp only
  split <;> rfl

theorem flipCard_flippedCards (s : GameState) (i : Nat) (c : Card)
    (hc : s.cards[i]? = some c) :
    (flipCard s i).flippedCards =
      s.flippedCards ++ [{ index := i, type := c.type }] := by
  unfold flipCard
  rw [hc]
  dsimp only
  split <;> rfl

theorem flipCard_moves (s : GameState) (i : Nat) (c : Card)
    (hc : s.cards[i]? = some c) :
    (flipCard s i).moves =
      if s.flippedCards.length + 1 = 2 then s.moves + 1 else s.moves := by
  unfold flipCard
  rw [hc]
  dsimp only
  have hlen : (s.flippedCards ++
      [({ index := i, type := c.type } : FlippedCard)]).length =
      s.flippedCards.length + 1 := by
    simp
  split <;> rename_i hcnd <;> rw [hlen] at hcnd
  · rw [if_pos hcnd]
  · rw [if_neg hcnd]

theorem flipCard_untouched (s : GameState) (i : Nat) :
    (flipCard s i).isGameActive = s.isGameActive ∧
    (flipCard s i).timerRunning = s.timerRunning ∧
    (flipCard s i).matchedPairs = s.matchedPairs ∧
    (flipCard s i).timer = s.timer ∧
    (flipCard s i).currentPlayer = s.currentPlayer := by
  unfold flipCard
  cases s.cards[i]? with
  | none => exact ⟨rfl, rfl, rfl, rfl, rfl⟩
  | some c =>
    dsimp only
    split <;> exact ⟨rfl, rfl, rfl, rfl, rfl⟩

theorem tick_untouched (s : GameState) :
    (tick s).cards = s.cards ∧
    (tick s).flippedCards = s.flippedCards ∧
    (tick s).matchedPairs = s.matchedPairs ∧
    (tick s).moves = s.moves ∧
    (tick s).isGameActive = s.isGameActive ∧
    (tick s).timerRunning = s.timerRunning := by
  unfold tick
  split <;> exact ⟨rfl, rfl, rfl, rfl, rfl, rfl⟩

theorem handleMatch_cards (s : GameState) (i1 i2 : Nat) :
    (handleMatch s i1 i2).cards = setCardMatched (setCardMatched s.cards i1) i2 := by
  unfold handleMatch completeGame stopTimer
  dsimp only
  split <;> rfl

theorem handleMatch_counters (s : GameState) (i1 i2 : Nat) :
    (handleMatch s i1 i2).matchedPairs = s.matchedPairs + 1 ∧
    (handleMatch s i1 i2).moves = s.moves ∧
    (handleMatch s i1 i2).timer = s.timer := by
  unfold handleMatch completeGame stopTimer
  dsimp only
  split <;> exact ⟨rfl, rfl, rfl⟩

theorem checkForMatch_moves (t : GameState) :
    (checkForMatch t).moves = t.moves := by
  unfold checkForMatch
  rcases t.flippedCards with - | ⟨c1, - | ⟨c2, - | ⟨c3, rest⟩⟩⟩
  · rfl
  · rfl
  · dsimp only
    split
    · exact (handleMatch_counters t c1.index c2.index).2.1
    · rfl
  · rfl

theorem click_noop (s : GameState) (i : Nat)
    (h : s.isGameActive = false ∨
      (∃ c, s.cards[i]? = some c ∧ (c.flipped = true ∨ c.matched = true)) ∨
      2 ≤ s.flippedCards.length) :
    handleCardClick s i = s := by
  unfold handleCardClick
  cases hc : s.cards[i]? with
  | none => rfl
  | some c =>
    have hcond : s.isGameActive = false ∨ c.flipped = true ∨ c.matched = true ∨
        2 ≤ s.flippedCards.length := by
      rcases h with h | ⟨c', hc', h'⟩ | h
      · exact Or.inl h
      · rw [hc] at hc'
        injection hc' with e
        subst e
        rcases h' with h' | h'
        · exact Or.inr (Or.inl h')
        · exact Or.inr (Or.inr (Or.inl h'))
      · exact Or.inr (Or.inr (Or.inr h))
    dsimp only
    rw [if_pos hcond]

theorem click_accepted (s : GameState) (i : Nat) (c : Card)
    (hc : s.cards[i]? = some c) (hact : s.isGameActive = true)
    (hf : c.flipped = false) (hm : c.matched = false)
    (hlen : s.flippedCards.length < 2) :
    handleCardClick s i = flipCard s i := by
  unfold handleCardClick
  rw [hc]
  dsimp only
  rw [if_neg]
  rintro (h | h | h | h)
  · rw [hact] at h; cases h
  · rw [hf] at h; cases h
  · rw [hm] at h; cases h
  · exact absurd h (Nat.not_le_of_lt hlen)

theorem resolve_noop_of_no_pending (s : GameState)
    (h : s.flippedCards = []) : checkForMatch s = s := by
  unfold checkForMatch
  rw [h]

/-! ### The session invariant is inductive -/

theorem inv_startGame (s0 : GameState) (rand : Nat → Nat) :
    Inv (startGame s0 rand) := by
  refine ⟨?_, rfl, ?_⟩
  · show (0 : Nat) ≤ 2
    decide
  · intro h8
    have h0 : (0 : Nat) = 8 := h8
    exact absurd h0 (by decide)

theorem inv_tick (s : GameState) (h : Inv s) : Inv (tick s) := by
  unfold tick
  split <;> exact ⟨h.1, h.2.1, h.2.2⟩

theorem inv_click (s : GameState) (i : Nat) (h : Inv s) :
    Inv (handleCardClick s i) := by
  unfold handleCardClick
  cases hc : s.cards[i]? with
  | none => exact h
  | some c =>
    dsimp only
    split
    · exact h
    · rename_i hcond
      have hact : s.isGameActive = true := by
        cases hb : s.isGameActive
        · exact absurd (Or.inl hb) hcond
        · rfl
      have hlen2 : s.flippedCards.length < 2 :=
        Nat.lt_of_not_le (fun hl => hcond (Or.inr (Or.inr (Or.inr hl))))
      have h8 : s.matchedPairs ≠ 8 := by
        intro hmp
        rw [(h.2.2 hmp).1] at hact
        cases hact
      unfold flipCard
      rw [hc]
      dsimp only
      split <;>
        refine ⟨?_, h.2.1, fun hmp => absurd hmp h8⟩ <;>
        · show (s.flippedCards ++ [_]).length ≤ 2
          rw [List.length_append]
          simpa using Nat.succ_le_of_lt hlen2

theorem inv_resolve (s : GameState) (h : Inv s) : Inv (checkForMatch s) := by
  unfold checkForMatch
  rcases hf : s.flippedCards with - | ⟨c1, - | ⟨c2, - | ⟨c3, rest⟩⟩⟩
  · exact h
  · exact h
  · dsimp only
    split
    · unfold handleMatch completeGame stopTimer
      dsimp only
      split
      · rename_i h8'
        exact ⟨by simp, rfl, fun _ => ⟨rfl, rfl⟩⟩
      · rename_i h8'
        exact ⟨by simp, h.2.1, fun hmp => absurd hmp h8'⟩
    · unfold handleNoMatch
      refine ⟨by simp, h.2.1, fun hmp => ⟨(h.2.2 hmp).1, rfl⟩⟩
  · exact h

theorem inv_step (s s' : GameState) (h : Inv s) (hs : Step s s') : Inv s' := by
  cases hs with
  | click i => exact inv_click s i h
  | tick => exact inv_tick s h
  | resolve => exact inv_resolve s h

theorem reachable_inv (rand : Nat → Nat) (s0 s : GameState)
    (h : SessionReachable rand s0 s) : Inv s := by
  induction h with
  | refl => exact inv_startGame s0 rand
  | tail hab hbc ih => exact inv_step _ _ ih hbc

/-! ### Completion is absorbing -/

theorem completed_preserved_step (s s' : GameState) (hI : Inv s)
    (hC : Completed s) (hs : Step s s') : Completed s' ∧ Inv s' := by
  refine ⟨?_, inv_step s s' hI hs⟩
  cases hs with
  | click i =>
    rw [click_noop s i (Or.inl hC.2)]
    exact hC
  | tick =>
    unfold tick
    split <;> exact ⟨hC.1, hC.2⟩
  | resolve =>
    rw [resolve_noop_of_no_pending s (hI.2.2 hC.1).2]
    exact hC

/-! ### Claims C3 - C7, C9, C10 -/

/-- C3: an accepted card selection grows the pending turn by one card;
`moves` increments by exactly 1 exactly when the pending turn thereby reaches
length 2, and not when it reaches length 1; neither the match check nor a
timer tick changes `moves`. -/
theorem moves_increment_on_second_reveal (s : GameState) (i : Nat) (c : Card)
    (hc : s.cards[i]? = some c) (hact : s.isGameActive = true)
    (hf : c.flipped = false) (hm : c.matched = false)
    (hlen : s.flippedCards.length < 2) :
    (handleCardClick s i).flippedCards.length = s.flippedCards.length + 1 ∧
    ((handleCardClick s i).flippedCards.length = 2 →
      (handleCardClick s i).moves = s.moves + 1) ∧
    ((handleCardClick s i).flippedCards.length = 1 →
      (handleCardClick s i).moves = s.moves) ∧
    (∀ t : GameState, (checkForMatch t).moves = t.moves) ∧
    (∀ t : GameState, (tick t).moves = t.moves) := by
  rw [click_accepted s i c hc hact hf hm hlen]
  have hfc := flipCard_flippedCards s i c hc
  have hmv := flipCard_moves s i c hc
  have hlen' : (flipCard s i).flippedCards.length = s.flippedCards.length + 1 := by
    rw [hfc]
    simp
  refine ⟨hlen', ?_, ?_, checkForMatch_moves, fun t => (tick_untouched t).2.2.2.1⟩
  · intro h2
    rw [hlen'] at h2
    rw [hmv, if_pos h2]
  · intro h1
    rw [hlen'] at h1
    rw [hmv, if_neg (by omega)]

/-- C4: `handleCardClick` (the spec's `selectCard`) is a silent no-op — the
whole state is unchanged, hence cards, pending turn, `moves`, `matchedPairs`
and `timer` — whenever the game is inactive, the card at the index is already
revealed or matched, or two cards are already pending; and in any state a
session can reach, the pending turn never holds more than 2 cards. -/
theorem selectCard_noop_conditions (s : GameState) (i : Nat)
    (rand : Nat → Nat) (s0 : GameState) :
    ((s.isGameActive = false ∨
        (∃ c, s.cards[i]? = some c ∧ (c.flipped = true ∨ c.matched = true)) ∨
        2 ≤ s.flippedCards.length) →
      handleCardClick s i = s) ∧
    (SessionReachable rand s0 s → s.flippedCards.length ≤ 2) :=
  ⟨click_noop s i, fun h => (reachable_inv rand s0 s h).1⟩

/-- C5: resolving a pending turn of two cards of equal type marks both cards
`matched`, increments `matchedPairs` and clears the turn; with different
types both cards end neither flipped nor matched (hidden) and `matchedPairs`
is unchanged, the turn again cleared; and no operation of a session ever
takes the `matched` class off a card. -/
theorem resolve_match_mismatch (s : GameState) (c1 c2 : FlippedCard)
    (hp : s.flippedCards = [c1, c2])
    (hm1 : (s.cards[c1.index]?).map Card.matched = some false)
    (hm2 : (s.cards[c2.index]?).map Card.matched = some false) :
    (c1.type = c2.type →
      ((checkForMatch s).cards[c1.index]?).map Card.matched = some true ∧
      ((checkForMatch s).cards[c2.index]?).map Card.matched = some true ∧
      (checkForMatch s).matchedPairs = s.matchedPairs + 1 ∧
      (checkForMatch s).flippedCards = []) ∧
    (c1.type ≠ c2.type →
      ((checkForMatch s).cards[c1.index]?).map Card.flipped = some false ∧
      ((checkForMatch s).cards[c2.index]?).map Card.flipped = some false ∧
      ((checkForMatch s).cards[c1.index]?).map Card.matched = some false ∧
      ((checkForMatch s).cards[c2.index]?).map Card.matched = some false ∧
      (checkForMatch s).matchedPairs = s.matchedPairs ∧
      (checkForMatch s).flippedCards = []) ∧
    (∀ (t : GameState) (j k : Nat),
      (t.cards[j]?).map Card.matched = some true →
      ((handleCardClick t k).cards[j]?).map Card.matched = some true ∧
      ((tick t).cards[j]?).map Card.matched = some true ∧
      ((checkForMatch t).cards[j]?).map Card.matched = some true) := by
  have hs1 : (s.cards[c1.index]?).isSome = true := by
    cases hcc : s.cards[c1.index]? with
    | none => rw [hcc] at hm1; cases hm1
    | some a => rfl
  have hs2 : (s.cards[c2.index]?).isSome = true := by
    cases hcc : s.cards[c2.index]? with
    | none => rw [hcc] at hm2; cases hm2
    | some a => rfl
  refine ⟨?_, ?_, ?_⟩
  · intro ht
    have hcfm : checkForMatch s =
        { handleMatch s c1.index c2.index with flippedCards := [] } := by
      unfold checkForMatch
      rw [hp]
      dsimp only
      rw [if_pos ht]
    rw [hcfm]
    refine ⟨?_, ?_, (handleMatch_counters s c1.index c2.index).1, rfl⟩
    · show ((handleMatch s c1.index c2.index).cards[c1.index]?).map Card.matched
        = some true
      rw [handleMatch_cards]
      refine matched_setCardMatched_mono _ _ _ ?_
      rw [matched_setCardMatched_proj, if_pos ⟨rfl, hs1⟩]
    · show ((handleMatch s c1.index c2.index).cards[c2.index]?).map Card.matched
        = some true
      rw [handleMatch_cards, matched_setCardMatched_proj,
        if_pos ⟨rfl, by rw [setCardMatched_isSome]; exact hs2⟩]
  · intro ht
    have hcfm : checkForMatch s =
        { handleNoMatch s c1.index c2.index with flippedCards := [] } := by
      unfold checkForMatch
      rw [hp]
      dsimp only
      rw [if_neg ht]
    rw [hcfm]
    unfold handleNoMatch
    refine ⟨?_, ?_, ?_, ?_, rfl, rfl⟩
    · show ((setCardUnflipped (setCardUnflipped s.cards c1.index)
        c2.index)[c1.index]?).map Card.flipped = some false
      rw [flipped_setCardUnflipped_proj]
      split
      · rfl
      · rw [flipped_setCardUnflipped_proj, if_pos ⟨rfl, hs1⟩]
    · show ((setCardUnflipped (setCardUnflipped s.cards c1.index)
        c2.index)[c2.index]?).map Card.flipped = some false
      rw [flipped_setCardUnflipped_proj,
        if_pos ⟨rfl, by rw [setCardUnflipped_isSome]; exact hs2⟩]
    · show ((setCardUnflipped (setCardUnflipped s.cards c1.index)
        c2.index)[c1.index]?).map Card.matched = some false
      rw [matched_setCardUnflipped_proj, matched_setCardUnflipped_proj]
      exact hm1
    · show ((setCardUnflipped (setCardUnflipped s.cards c1.index)
        c2.index)[c2.index]?).map Card.matched = some false
      rw [matched_setCardUnflipped_proj, matched_setCardUnflipped_proj]
      exact hm2
  · intro t j k hmt
    refine ⟨?_, ?_, ?_⟩
    · unfold handleCardClick
      cases hck : t.cards[k]? with
      | none => exact hmt
      | some ck =>
        dsimp only
        split
        · exact hmt
        · rw [flipCard_cards t k ck hck,
            matched_proj_set t.cards k j ck { ck with flipped := true } hck rfl]
          exact hmt
    · rw [(tick_untouched t).1]
      exact hmt
    · unfold checkForMatch
      rcases t.flippedCards with - | ⟨a, - | ⟨b, - | ⟨d, rest⟩⟩⟩
      · exact hmt
      · exact hmt
      · dsimp only
        split
        · show ((handleMatch t a.index b.index).cards[j]?).map Card.matched
            = some true
          rw [handleMatch_cards]
          exact matched_setCardMatched_mono _ _ _
            (matched_setCardMatched_mono _ _ _ hmt)
        · show ((handleNoMatch t a.index b.index).cards[j]?).map Card.matched
            = some true
          unfold handleNoMatch
          show ((setCardUnflipped (setCardUnflipped t.cards a.index)
            b.index)[j]?).map Card.matched = some true
          rw [matched_setCardUnflipped_proj, matched_setCardUnflipped_proj]
          exact hmt
      · exact hmt

/-- C6: in any state a session can reach, the session is `Completed` exactly
when `matchedPairs` is 8, and once `Completed` every further sequence of card
clicks, timer ticks and match checks stays `Completed`. -/
theorem completed_iff_and_absorbing (rand : Nat → Nat) (s0 s : GameState)
    (h : SessionReachable rand s0 s) :
    (Completed s ↔ s.matchedPairs = 8) ∧
    (Completed s → ∀ s', Relation.ReflTransGen Step s s' → Completed s') := by
  have hInv := reachable_inv rand s0 s h
  constructor
  · exact ⟨fun hC => hC.1, fun h8 => ⟨h8, (hInv.2.2 h8).1⟩⟩
  · intro hC s' hsteps
    have hcarry : Completed s' ∧ Inv s' := by
      induction hsteps with
      | refl => exact ⟨hC, hInv⟩
      | tail hab hbc ih =>
        exact completed_preserved_step _ _ ih.2 ih.1 hbc
    exact hcarry.1

/-- C7: in any state a session can reach, a timer tick while the game is
inactive leaves `timer` unchanged, and a tick while the game is active
increments `timer` by exactly 1. -/
theorem tick_respects_activity (rand : Nat → Nat) (s0 s : GameState)
    (h : SessionReachable rand s0 s) :
    (s.isGameActive = false → (tick s).timer = s.timer) ∧
    (s.isGameActive = true → (tick s).timer = s.timer + 1) := by
  have hrun := (reachable_inv rand s0 s h).2.1
  constructor
  · intro hin
    have hr : s.timerRunning = false := by rw [← hrun, hin]
    unfold tick
    rw [hr]
    rfl
  · intro hact
    have hr : s.timerRunning = true := by rw [← hrun, hact]
    unfold tick
    rw [hr]
    rfl

/-- C9: `handleTryAgain` increments the player's attempt number by exactly 1,
persists the new value under the player's `nickname_email` key, and starts a
brand-new session with `moves`, `timer`, `matchedPairs` and the pending turn
all reset and the game active again. -/
theorem tryAgain_increments_and_resets (s : GameState) (st : LocalStorage)
    (rand : Nat → Nat) (n : Nat) (h : s.currentPlayer.attempt = some n) :
    (handleTryAgain s st rand).1.currentPlayer.attempt = some (n + 1) ∧
    getItem (handleTryAgain s st rand).2 (playerKey s.currentPlayer) =
      some (toString (n + 1)) ∧
    (handleTryAgain s st rand).1.moves = 0 ∧
    (handleTryAgain s st rand).1.timer = 0 ∧
    (handleTryAgain s st rand).1.matchedPairs = 0 ∧
    (handleTryAgain s st rand).1.flippedCards = [] ∧
    (handleTryAgain s st rand).1.isGameActive = true := by
  unfold handleTryAgain startGame startTimer getItem setItem
  dsimp only
  rw [h]
  refine ⟨rfl, ?_, rfl, rfl, rfl, rfl, rfl⟩
  rw [if_pos rfl]
  rfl

/-- C10: when a game is started from a valid entry form, the attempt number
stamped into the session is the stored count plus 1 when the store holds a
count under `nickname_email`, and 1 when it holds nothing; in both cases the
new value is written back under that key. -/
theorem startGame_attempt_numbering (s : GameState) (st : LocalStorage)
    (nickname email : String) (rand : Nat → Nat) (v : String) (n : Nat)
    (hn : 2 ≤ (trimJS nickname).length) (he : isValidEmail (trimJS email) = true) :
    (getItem st ((trimJS nickname) ++ "_" ++ (trimJS email)) = some v →
      parseIntJS v = some n →
      (handleStartGame s st nickname email rand).1.currentPlayer.attempt =
        some (n + 1) ∧
      getItem (handleStartGame s st nickname email rand).2
        ((trimJS nickname) ++ "_" ++ (trimJS email)) = some (toString (n + 1))) ∧
    (getItem st ((trimJS nickname) ++ "_" ++ (trimJS email)) = none →
      (handleStartGame s st nickname email rand).1.currentPlayer.attempt =
        some 1 ∧
      getItem (handleStartGame s st nickname email rand).2
        ((trimJS nickname) ++ "_" ++ (trimJS email)) = some "1") := by
  unfold handleStartGame getItem setItem
  dsimp only
  rw [if_neg (Nat.not_lt.mpr hn),
    if_neg (show ¬(isValidEmail (trimJS email) = false) from fun hfalse => by
      rw [he] at hfalse; cases hfalse)]
  constructor
  · intro hv hparse
    have hne : v ≠ "" := by
      intro heq
      rw [heq] at hparse
      exact Option.noConfusion hparse
    rw [hv]
    dsimp only
    rw [if_neg hne, hparse]
    refine ⟨rfl, ?_⟩
    rw [if_pos rfl]
    rfl
  · intro hnone
    rw [hnone]
    dsimp only
    refine ⟨rfl, ?_⟩
    rw [if_pos rfl]
    rfl

/-! ### Concrete executions used as witnesses -/

/-- A random oracle that always draws 0. -/
def rand0 : Nat → Nat := fun _ => 0

/-- A fresh game for the oracle `rand0`.  Its deck is
`["1","2","2","3","3","4","4","5","5","6","6","7","7","8","8","1"]`. -/
def gStart : GameState := startGame initState rand0

/-- Reveal card `i`, reveal card `j`, then run the scheduled match check. -/
def playPair (s : GameState) (i j : Nat) : GameState :=
  checkForMatch (handleCardClick (handleCardClick s i) j)

/-- The state after finding all eight pairs of `gStart` in sequence. -/
def sDone : GameState :=
  playPair (playPair (playPair (playPair (playPair (playPair (playPair
    (playPair gStart 0 15) 1 2) 3 4) 5 6) 7 8) 9 10) 11 12) 13 14

theorem reach_playPair (rand : Nat → Nat) (s0 s : GameState) (i j : Nat)
    (h : SessionReachable rand s0 s) :
    SessionReachable rand s0 (playPair s i j) :=
  ((h.tail (Step.click s i)).tail (Step.click _ j)).tail (Step.resolve _)

theorem gStart_reachable : SessionReachable rand0 initState gStart :=
  Relation.ReflTransGen.refl

theorem sDone_reachable : SessionReachable rand0 initState sDone :=
  reach_playPair _ _ _ 13 14 (reach_playPair _ _ _ 11 12
    (reach_playPair _ _ _ 9 10 (reach_playPair _ _ _ 7 8
      (reach_playPair _ _ _ 5 6 (reach_playPair _ _ _ 3 4
        (reach_playPair _ _ _ 1 2
          (reach_playPair _ _ _ 0 15 gStart_reachable)))))))

/-- A fresh game with the first two (distinct) cards revealed and pending. -/
def sTwo : GameState := handleCardClick (handleCardClick gStart 0) 1

theorem sTwo_reachable : SessionReachable rand0 initState sTwo :=
  (Relation.ReflTransGen.refl.tail (Step.click gStart 0)).tail
    (Step.click (handleCardClick gStart 0) 1)

/-- A small hand-written active state with two hidden matching cards. -/
def sSmall : GameState :=
  { cards := [{ type := "1", flipped := false, matched := false },
              { type := "1", flipped := false, matched := false }],
    flippedCards := [], matchedPairs := 0, moves := 0, timer := 0,
    isGameActive := true, timerRunning := true,
    currentPlayer := { nickname := "p", email := "p@e.x", attempt := some 1 } }

/-- A hand-written state with two matching cards revealed and pending. -/
def sPair : GameState :=
  { cards := [{ type := "1", flipped := true, matched := false },
              { type := "1", flipped := true, matched := false },
              { type := "2", flipped := true, matched := false }],
    flippedCards := [{ index := 0, type := "1" }, { index := 1, type := "1" }],
    matchedPairs := 0, moves := 1, timer := 0,
    isGameActive := true, timerRunning := true,
    currentPlayer := { nickname := "p", email := "p@e.x", attempt := some 1 } }

/-- The empty key-value store. -/
def stEmpty : LocalStorage := fun _ => none

/-- A store holding attempt count 3 for the player `ab` / `a@b.c`. -/
def stThree : LocalStorage := setItem stEmpty "ab_a@b.c" "3"

/-- C3 witness: the first reveal of `sSmall` leaves `moves` unchanged and the
second reveal increments it by exactly 1. -/
theorem moves_increment_on_second_reveal_witness :
    (handleCardClick sSmall 0).moves = sSmall.moves ∧
    (handleCardClick (handleCardClick sSmall 0) 1).moves =
      (handleCardClick sSmall 0).moves + 1 := by
  have h1 := moves_increment_on_second_reveal sSmall 0
    { type := "1", flipped := false, matched := false } rfl rfl rfl rfl (by decide)
  have h2 := moves_increment_on_second_reveal (handleCardClick sSmall 0) 1
    { type := "1", flipped := false, matched := false } (by decide) (by decide)
    rfl rfl (by decide)
  exact ⟨h1.2.2.1 (by decide), h2.2.1 (by decide)⟩

/-- C4 witness: with two cards pending in the reachable state `sTwo`, a third
click is a no-op, and the pending turn is within its bound. -/
theorem selectCard_noop_conditions_witness :
    handleCardClick sTwo 5 = sTwo ∧ sTwo.flippedCards.length ≤ 2 := by
  have h := selectCard_noop_conditions sTwo 5 rand0 initState
  exact ⟨h.1 (Or.inr (Or.inr (by decide))), h.2 sTwo_reachable⟩

/-- C5 witness: resolving the matching pending pair of `sPair` marks cards 0
and 1 matched, increments `matchedPairs` and clears the turn. -/
theorem resolve_match_mismatch_witness :
    ((checkForMatch sPair).cards[0]?).map Card.matched = some true ∧
    ((checkForMatch sPair).cards[1]?).map Card.matched = some true ∧
    (checkForMatch sPair).matchedPairs = sPair.matchedPairs + 1 ∧
    (checkForMatch sPair).flippedCards = [] := by
  have h := resolve_match_mismatch sPair { index := 0, type := "1" }
    { index := 1, type := "1" } rfl (by decide) (by decide)
  exact h.1 rfl

set_option maxRecDepth 8000 in
/-- C6 witness: the fully played game `sDone` is `Completed`, and stays
`Completed` after a further tick. -/
theorem completed_iff_and_absorbing_witness :
    Completed sDone ∧ Completed (tick sDone) := by
  have h := completed_iff_and_absorbing rand0 initState sDone sDone_reachable
  have hC : Completed sDone := h.1.mpr (by decide)
  exact ⟨hC, h.2 hC (tick sDone) (Relation.ReflTransGen.single (Step.tick sDone))⟩

set_option maxRecDepth 8000 in
/-- C7 witness: a tick on the active fresh game advances the timer by 1; a
tick on the completed (inactive) game leaves it unchanged. -/
theorem tick_respects_activity_witness :
    (tick gStart).timer = gStart.timer + 1 ∧ (tick sDone).timer = sDone.timer :=
  ⟨(tick_respects_activity rand0 initState gStart gStart_reachable).2 rfl,
    (tick_respects_activity rand0 initState sDone sDone_reachable).1 (by decide)⟩

/-- C9 witness: trying again from the initial player (attempt 1) stamps
attempt 2, stores "2" under the player's key, and resets the session. -/
theorem tryAgain_increments_and_resets_witness :
    (handleTryAgain initState stEmpty rand0).1.currentPlayer.attempt = some 2 ∧
    getItem (handleTryAgain initState stEmpty rand0).2
      (playerKey initState.currentPlayer) = some (toString 2) ∧
    (handleTryAgain initState stEmpty rand0).1.moves = 0 ∧
    (handleTryAgain initState stEmpty rand0).1.timer = 0 ∧
    (handleTryAgain initState stEmpty rand0).1.matchedPairs = 0 ∧
    (handleTryAgain initState stEmpty rand0).1.flippedCards = [] ∧
    (handleTryAgain initState stEmpty rand0).1.isGameActive = true :=
  tryAgain_increments_and_resets initState stEmpty rand0 1 rfl

/-- C10 witness: starting from the form with a stored count of 3 stamps
attempt 4 and stores "4"; with an empty store it stamps attempt 1 and stores
"1". -/
theorem startGame_attempt_numbering_witness :
    ((handleStartGame initState stThree "ab" "a@b.c" rand0).1.currentPlayer.attempt
        = some 4 ∧
      getItem (handleStartGame initState stThree "ab" "a@b.c" rand0).2 "ab_a@b.c"
        = some "4") ∧
    ((handleStartGame initState stEmpty "ab" "a@b.c" rand0).1.currentPlayer.attempt
        = some 1 ∧
      getItem (handleStartGame initState stEmpty "ab" "a@b.c" rand0).2 "ab_a@b.c"
        = some "1") := by
  constructor
  · exact (startGame_attempt_numbering initState stThree "ab" "a@b.c" rand0 "3" 3
      (by decide) (by decide)).1 (by decide) rfl
  · exact (startGame_attempt_numbering initState stEmpty "ab" "a@b.c" rand0 "" 0
      (by decide) (by decide)).2 rfl

/-- C1 witness: the deck drawn with the all-zero oracle has 16 cards and its
symbol "1" occurs exactly twice. -/
theorem generateCards_multiset_invariant_witness :
    (generateCards rand0).length = 16 ∧ (generateCards rand0).count "1" = 2 := by
  have h := generateCards_multiset_invariant rand0
  exact ⟨h.1, h.2.2 "1" (by decide)⟩

end MemoryGame
